import Mathlib

/-!
Verification of the NetTool plugin runtime (package `app/plugins` and
`app/plugins/types` of raf181/NetTool) against its natural-language
specification.  Go values of type `interface{}` are embedded as `JValue`,
`map[string]interface{}` as association lists, `*float64` as `Option ℚ`,
and Go `(result, error)` pairs as `Option JValue × Option String` or
`Except String _`.  Filesystem reads, JSON (un)marshalling and subprocess
invocations are environment parameters supplied to the embedded functions,
mirroring exactly the branch structure of the source.
-/

namespace NetTool

/-- Embedding of Go `interface{}` values as they occur in plugin
parameters and results: JSON-like scalars. -/
inductive JValue where
  | null
  | bool (b : Bool)
  | num (q : ℚ)
  | str (s : String)
  deriving DecidableEq, Repr

/-- Go type `types.Option` / `plugins.Option`: one option of a select
parameter (`Value interface{}`, `Label string`). -/
structure SelectOption where
  value : JValue
  label : String
  deriving DecidableEq, Repr

/-- Go type `types.ParameterType`: a string-typed enumeration. -/
abbrev ParameterType := String

/-- Go type `types.PluginParam` (plugin_types.go): one declared parameter
of a plugin definition. -/
structure PluginParam where
  id : String
  name : String
  description : String
  type : ParameterType
  required : Bool
  default : Option JValue
  options : List SelectOption
  min : Option ℚ
  max : Option ℚ
  step : Option ℚ
  canIterate : Bool
  deriving DecidableEq, Repr

/-- Go type `types.PluginDefinition` (plugin_types.go): declarative plugin
metadata. -/
structure PluginDefinition where
  id : String
  name : String
  description : String
  version : String
  author : String
  license : String
  icon : String
  parameters : List PluginParam
  requires : List String
  repository : String
  deriving DecidableEq, Repr

/-- Go type `types.Parameter` (legacy shape, compat.go): like `PluginParam`
but without the `CanIterate` field. -/
structure LegacyParameter where
  id : String
  name : String
  description : String
  type : ParameterType
  required : Bool
  default : Option JValue
  options : List SelectOption
  min : Option ℚ
  max : Option ℚ
  step : Option ℚ
  deriving DecidableEq, Repr

/-- Go type `types.LegacyPlugin` (compat.go): the older, flatter plugin
definition shape. -/
structure LegacyPlugin where
  id : String
  name : String
  description : String
  icon : String
  parameters : List LegacyParameter
  deriving DecidableEq, Repr

/-- Go struct `plugins.Parameter` (plugin_manager.go): the manager's own
parameter record; fields coincide with `types.PluginParam`. -/
structure Parameter where
  id : String
  name : String
  description : String
  type : ParameterType
  required : Bool
  default : Option JValue
  options : List SelectOption
  min : Option ℚ
  max : Option ℚ
  step : Option ℚ
  canIterate : Bool
  deriving DecidableEq, Repr

/-- Result of a Go executor `func(map[string]interface{}) (interface{}, error)`:
the `interface{}` result and the `error`, both possibly nil. -/
abbrev ExecResult := Option JValue × Option String

/-- Go struct `plugins.Plugin` (plugin_manager.go): a registered plugin,
its metadata and its executor function. -/
structure Plugin where
  id : String
  name : String
  description : String
  version : String
  author : String
  license : String
  icon : String
  parameters : List Parameter
  execute : List (String × JValue) → ExecResult

/-- `PluginManager.GetPlugin` (plugin_manager.go): look the identifier up
in the manager's map; a missing identifier yields the error
"plugin not found".  The manager's `map[string]*Plugin` is embedded as an
association list. -/
def getPlugin (plugins : List (String × Plugin)) (id : String) :
    Option Plugin × Option String :=
  match plugins.lookup id with
  | some p => (some p, none)
  | none => (none, some "plugin not found")

/-- `PluginManager.RunPlugin` (plugin_manager.go): resolve the plugin,
reject at the first required parameter absent from `params` (in declaration
order), otherwise call the executor.  The second component counts executor
invocations (0 or 1), making "no dispatch happened" observable. -/
def runPlugin (plugins : List (String × Plugin)) (id : String)
    (params : List (String × JValue)) : ExecResult × Nat :=
  match plugins.lookup id with
  | none => ((none, some "plugin not found"), 0)
  | some plugin =>
    match plugin.parameters.find? (fun p => p.required && (params.lookup p.id).isNone) with
    | some p => ((none, some ("missing required parameter: " ++ p.id)), 0)
    | none => (plugin.execute params, 1)

end NetTool

namespace NetTool

/-- C1: with a registered plugin and a parameter mapping missing some
required parameter, `RunPlugin` returns a validation error naming a
missing required parameter and the executor is invoked zero times. -/
theorem runPlugin_missing_required_param (plugins : List (String × Plugin))
    (id : String) (params : List (String × JValue)) (plugin : Plugin)
    (p : Parameter) (hlook : plugins.lookup id = some plugin)
    (hmem : p ∈ plugin.parameters) (hreq : p.required = true)
    (habsent : params.lookup p.id = none) :
    ∃ q ∈ plugin.parameters, q.required = true ∧ params.lookup q.id = none ∧
      runPlugin plugins id params =
        ((none, some ("missing required parameter: " ++ q.id)), 0) := by
  have hsat : ∃ x ∈ plugin.parameters,
      (x.required && (params.lookup x.id).isNone) = true := by
    exact ⟨p, hmem, by simp [hreq, habsent]⟩
  have hfind : (plugin.parameters.find?
      (fun p => p.required && (params.lookup p.id).isNone)).isSome := by
    rw [List.find?_isSome]
    exact hsat
  obtain ⟨q, hq⟩ := Option.isSome_iff_exists.mp hfind
  have hqmem := List.mem_of_find?_eq_some hq
  have hqsat := List.find?_some hq
  simp only [Bool.and_eq_true, Option.isNone_iff_eq_none] at hqsat
  refine ⟨q, hqmem, hqsat.1, hqsat.2, ?_⟩
  simp [runPlugin, hlook, hq]

/-- C4: `RunPlugin` on an identifier absent from the manager's map returns
the resolution error "plugin not found", a nil result, and never invokes
any executor. -/
theorem runPlugin_unknown_id (plugins : List (String × Plugin)) (id : String)
    (params : List (String × JValue)) (hlook : plugins.lookup id = none) :
    runPlugin plugins id params = ((none, some "plugin not found"), 0) := by
  simp [runPlugin, hlook]

/-- A concrete plugin used to witness the manager theorems: the spec's
`ping` example with one required `host` parameter. -/
def hostParam : Parameter :=
  { id := "host", name := "Host", description := "Target host"
    type := "string", required := true, default := none, options := []
    min := none, max := none, step := none, canIterate := false }

/-- Concrete `ping` plugin whose executor returns a fixed success value. -/
def pingPlugin : Plugin :=
  { id := "ping", name := "Ping", description := "Reachability check"
    version := "1.0.0", author := "NetTool Team", license := "MIT"
    icon := "network", parameters := [hostParam]
    execute := fun _ => (some (.str "ok"), none) }

/-- Witness for C1: running `ping` with an empty parameter map yields the
validation error for `host` and zero executor invocations. -/
theorem runPlugin_missing_required_param_witness :
    ∃ q ∈ pingPlugin.parameters, q.required = true ∧
      (([] : List (String × JValue)).lookup q.id = none) ∧
      runPlugin [("ping", pingPlugin)] "ping" [] =
        ((none, some ("missing required parameter: " ++ q.id)), 0) :=
  runPlugin_missing_required_param [("ping", pingPlugin)] "ping" [] pingPlugin
    hostParam rfl (by simp [pingPlugin]) rfl rfl

/-- Witness for C4: an unregistered identifier produces the resolution
error on the concrete one-plugin manager. -/
theorem runPlugin_unknown_id_witness :
    runPlugin [("ping", pingPlugin)] "nope" [] =
      ((none, some "plugin not found"), 0) :=
  runPlugin_unknown_id [("ping", pingPlugin)] "nope" [] rfl

end NetTool

namespace NetTool.CLI

/-- Go struct `types.IterationResult`: one recorded iteration.  The Go
struct also carries a wall-clock `Timestamp`, which has no shallow
embedding and is omitted; `Error` is Go's zero-defaulted string, set from
`err.Error()` only when the iteration returned a non-nil error. -/
structure IterationResult where
  iterationCount : Nat
  result : JValue
  continueIteration : Bool
  error : String
  deriving DecidableEq, Repr

/-- Why the iteration loop of `IterableCLI.Run` returned. -/
inductive StopCause where
  | maxIterations
  | notContinuing
  | errored
  | operator
  | fuelExhausted
  deriving DecidableEq, Repr

/-- Observable trace of one run of the loop in `IterableCLI.Run`:
the recorded results in call order, why it stopped, the iteration counts
at which `promptContinueIteration` was consulted, and the
`(RunInTerminal, iterationCount)` pairs passed to `printResult`. -/
structure RunTrace where
  results : List IterationResult
  stop : StopCause
  prompts : List Nat
  printed : List (Bool × Nat)
  deriving DecidableEq, Repr

/-- The iteration loop of `IterableCLI.Run` (iterable_cli.go lines 74-131),
fuel-indexed to make the possibly unbounded Go `for` loop total.  In loop
order: (1) break once `MaxIterations > 0` and the count reached it;
(2) call `ExecuteIteration` (embedded as `execIter`, the parameter map
being fixed); (3) record the `IterationResult`; (4) `printResult`;
(5) break when not continuing without error; (6) break on a non-nil
error; (7) increment; (8) after every five iterations consult
`promptContinueIteration` (embedded as the oracle `prompt`), stopping on a
negative answer; (9) the inter-iteration sleep has no observable effect
and is omitted.  `RunInTerminal` is threaded because `printResult`
formats by it; the loop itself never reads it otherwise, exactly as in
the source. -/
def runLoop (maxIterations : Int) (runInTerminal : Bool)
    (execIter : Nat → JValue × Bool × Option String) (prompt : Nat → Bool) :
    Nat → Nat → RunTrace
  | 0, _ => ⟨[], .fuelExhausted, [], []⟩
  | fuel + 1, iterationCount =>
    if maxIterations > 0 ∧ (iterationCount : Int) ≥ maxIterations then
      ⟨[], .maxIterations, [], []⟩
    else
      match execIter iterationCount with
      | (result, continueIteration, err) =>
        let rec1 : IterationResult :=
          { iterationCount := iterationCount, result := result
            continueIteration := continueIteration
            error := match err with | some e => e | none => "" }
        if continueIteration = false ∧ err = none then
          ⟨[rec1], .notContinuing, [], [(runInTerminal, iterationCount)]⟩
        else if err ≠ none then
          ⟨[rec1], .errored, [], [(runInTerminal, iterationCount)]⟩
        else
          let count' := iterationCount + 1
          if count' > 0 ∧ count' % 5 = 0 then
            if prompt count' = false then
              ⟨[rec1], .operator, [count'], [(runInTerminal, iterationCount)]⟩
            else
              let t := runLoop maxIterations runInTerminal execIter prompt fuel count'
              ⟨rec1 :: t.results, t.stop, count' :: t.prompts,
                (runInTerminal, iterationCount) :: t.printed⟩
          else
            let t := runLoop maxIterations runInTerminal execIter prompt fuel count'
            ⟨rec1 :: t.results, t.stop, t.prompts,
              (runInTerminal, iterationCount) :: t.printed⟩

/-- Helper for C6: from any starting count not above the bound, an
always-continuing, never-failing plugin is dispatched exactly once per
remaining count and the loop stops at the max-iteration check. -/
theorem runLoop_always_continue (K : Nat) (hK : 0 < K) (b : Bool)
    (f : Nat → JValue) (prompt : Nat → Bool) (hprompt : ∀ n, prompt n = true) :
    ∀ fuel count, count ≤ K → K - count < fuel →
      ((runLoop (K : Int) b (fun n => (f n, true, none)) prompt fuel count).results.map
          (fun r => r.iterationCount) = List.range' count (K - count)) ∧
        (runLoop (K : Int) b (fun n => (f n, true, none)) prompt fuel count).stop =
          StopCause.maxIterations := by
  intro fuel
  induction fuel with
  | zero => intro count _ h; omega
  | succ fuel ih =>
    intro count hle hfuel
    by_cases hstop : count = K
    · have h0 : K ≤ count := le_of_eq hstop.symm
      simp [runLoop, hK, h0, hstop, Nat.sub_self]
    · have hlt : count < K := by omega
      have hnot : ¬ (0 < K ∧ K ≤ count) := by omega
      have ihspec := ih (count + 1) (by omega) (by omega)
      have hrange : K - count = (K - (count + 1)) + 1 := by omega
      by_cases hmod : (count + 1) % 5 = 0
      · simp [runLoop, hnot, hmod, hprompt (count + 1), ihspec.1, ihspec.2,
          hrange, List.range'_succ]
      · simp [runLoop, hnot, hmod, ihspec.1, ihspec.2, hrange, List.range'_succ]

end NetTool.CLI

namespace NetTool.CLI

/-- C6: with `maxIterations = K > 0`, an always-continuing, never-failing
iteration entry point, and every operator checkpoint answering continue,
the loop halts after exactly K iterations with exactly K results recorded
in call order (iteration counts 0, 1, ..., K-1); the bound is checked
before dispatching each iteration, so no K+1st dispatch occurs. -/
theorem runLoop_exactly_K_iterations (K : Nat) (b : Bool) (f : Nat → JValue)
    (prompt : Nat → Bool) (fuel : Nat) (hK : 0 < K)
    (hprompt : ∀ n, prompt n = true) (hfuel : K < fuel) :
    (runLoop (K : Int) b (fun n => (f n, true, none)) prompt fuel 0).results.length = K ∧
    (runLoop (K : Int) b (fun n => (f n, true, none)) prompt fuel 0).results.map
        (fun r => r.iterationCount) = List.range K ∧
    (runLoop (K : Int) b (fun n => (f n, true, none)) prompt fuel 0).stop =
      StopCause.maxIterations := by
  have h := runLoop_always_continue K hK b f prompt hprompt fuel 0 (Nat.zero_le K)
    (by omega)
  refine ⟨?_, ?_, h.2⟩
  · have hlen := congrArg List.length h.1
    simpa using hlen
  · simpa [List.range_eq_range'] using h.1

/-- Witness for C6 at K = 7 (crossing one operator checkpoint): seven
results, iteration counts 0..6, stop at the max-iteration check. -/
theorem runLoop_exactly_K_iterations_witness :
    (runLoop ((7 : Nat) : Int) true (fun n => (JValue.num n, true, none))
        (fun _ => true) 20 0).results.length = 7 ∧
    (runLoop ((7 : Nat) : Int) true (fun n => (JValue.num n, true, none))
        (fun _ => true) 20 0).results.map (fun r => r.iterationCount) = List.range 7 ∧
    (runLoop ((7 : Nat) : Int) true (fun n => (JValue.num n, true, none))
        (fun _ => true) 20 0).stop = StopCause.maxIterations :=
  runLoop_exactly_K_iterations 7 true (fun n => JValue.num n) (fun _ => true) 20
    (by decide) (fun _ => rfl) (by decide)

/-- C7: the first iteration whose entry point returns a non-nil error is
the last one executed: the loop returns right after recording it, with no
further dispatch, no retry, no operator consultation, and the error text
stored in the recorded result. -/
theorem runLoop_halts_on_error (max : Int) (b : Bool)
    (execIter : Nat → JValue × Bool × Option String) (prompt : Nat → Bool)
    (fuel count : Nat) (res : JValue) (cont : Bool) (e : String)
    (hfuel : 0 < fuel) (hmax : ¬ (max > 0 ∧ (count : Int) ≥ max))
    (hexec : execIter count = (res, cont, some e)) :
    runLoop max b execIter prompt fuel count =
      ⟨[⟨count, res, cont, e⟩], .errored, [], [(b, count)]⟩ := by
  cases fuel with
  | zero => omega
  | succ fuel => simp [runLoop, hmax, hexec]

/-- Witness for C7: an entry point failing immediately yields a one-entry
trace that stops as errored. -/
theorem runLoop_halts_on_error_witness :
    runLoop 3 false (fun _ => (JValue.null, true, some "boom")) (fun _ => true) 9 0 =
      ⟨[⟨0, JValue.null, true, "boom"⟩], .errored, [], [(false, 0)]⟩ :=
  runLoop_halts_on_error 3 false (fun _ => (JValue.null, true, some "boom"))
    (fun _ => true) 9 0 JValue.null true "boom" (by decide) (by decide) rfl

/-- Counterexample to C8: with `RunInTerminal = false` (headless) the
operator checkpoint is still reached — after five iterations the loop
consults the prompt (here answering no) and stops as stopped-by-operator,
so the checkpoint is not skipped in non-interactive invocation. -/
theorem runLoop_prompts_when_headless :
    (runLoop 0 false (fun n => (JValue.num n, true, none)) (fun _ => false) 6 0).prompts
        = [5] ∧
    (runLoop 0 false (fun n => (JValue.num n, true, none)) (fun _ => false) 6 0).stop
        = StopCause.operator ∧
    (runLoop 0 false (fun n => (JValue.num n, true, none)) (fun _ => false) 6 0).results.length
        = 5 := by
  decide

/-- Helper for C8: the loop's results, stop cause and operator
consultations do not depend on `RunInTerminal`; only the formatting log of
`printResult` records the flag. -/
theorem runLoop_trace_independent (max : Int)
    (execIter : Nat → JValue × Bool × Option String) (prompt : Nat → Bool) :
    ∀ fuel count b1 b2,
      (runLoop max b1 execIter prompt fuel count).results =
        (runLoop max b2 execIter prompt fuel count).results ∧
      (runLoop max b1 execIter prompt fuel count).stop =
        (runLoop max b2 execIter prompt fuel count).stop ∧
      (runLoop max b1 execIter prompt fuel count).prompts =
        (runLoop max b2 execIter prompt fuel count).prompts := by
  intro fuel
  induction fuel with
  | zero =>
    intro count b1 b2
    simp [runLoop]
  | succ fuel ih =>
    intro count b1 b2
    rcases hE : execIter count with ⟨res, cont, err⟩
    have ihspec := ih (count + 1) b1 b2
    simp only [runLoop, hE]
    split_ifs <;> simp_all

/-- Helper for C8: every operator consultation happens at a positive
multiple of five completed iterations. -/
theorem runLoop_prompts_mult_of_five (max : Int) (b : Bool)
    (execIter : Nat → JValue × Bool × Option String) (prompt : Nat → Bool) :
    ∀ fuel count n, n ∈ (runLoop max b execIter prompt fuel count).prompts →
      0 < n ∧ n % 5 = 0 := by
  intro fuel
  induction fuel with
  | zero =>
    intro count n hn
    simp [runLoop] at hn
  | succ fuel ih =>
    intro count n hn
    rcases hE : execIter count with ⟨res, cont, err⟩
    simp only [runLoop, hE] at hn
    split_ifs at hn with h1 h2 h3 h4 h5
    · simp at hn
    · simp at hn
    · simp at hn
    · simp at hn
      omega
    · simp at hn
      rcases hn with hn | hn
      · omega
      · exact ih (count + 1) n hn
    · exact ih (count + 1) n hn

end NetTool.CLI

namespace NetTool.CLI

/-- C8 (amended): the five-iteration operator checkpoint runs regardless
of `RunInTerminal` — the flag affects only `printResult` formatting, never
whether the prompt is consulted; every consultation happens after a
positive multiple of five completed iterations; and a negative answer at
a checkpoint halts the loop as stopped-by-operator with nothing further
dispatched. -/
theorem runLoop_checkpoint_regardless_of_mode :
    ∀ (max : Int) (execIter : Nat → JValue × Bool × Option String)
      (prompt : Nat → Bool) (fuel count : Nat) (b1 b2 : Bool),
      ((runLoop max b1 execIter prompt fuel count).results =
          (runLoop max b2 execIter prompt fuel count).results ∧
        (runLoop max b1 execIter prompt fuel count).stop =
          (runLoop max b2 execIter prompt fuel count).stop ∧
        (runLoop max b1 execIter prompt fuel count).prompts =
          (runLoop max b2 execIter prompt fuel count).prompts) ∧
      (∀ n ∈ (runLoop max b1 execIter prompt fuel count).prompts,
        0 < n ∧ n % 5 = 0) ∧
      (∀ res : JValue, execIter count = (res, true, none) →
        ¬ (max > 0 ∧ (count : Int) ≥ max) → (count + 1) % 5 = 0 →
        prompt (count + 1) = false → 0 < fuel →
        runLoop max b1 execIter prompt fuel count =
          ⟨[⟨count, res, true, ""⟩], .operator, [count + 1], [(b1, count)]⟩) := by
  intro max execIter prompt fuel count b1 b2
  refine ⟨runLoop_trace_independent max execIter prompt fuel count b1 b2,
    runLoop_prompts_mult_of_five max b1 execIter prompt fuel count, ?_⟩
  intro res hexec hmax hmod hp hfuel
  cases fuel with
  | zero => omega
  | succ fuel => simp [runLoop, hmax, hexec, hmod, hp]

/-- Witness for the C8 amended theorem at a concrete headless run. -/
theorem runLoop_checkpoint_regardless_of_mode_witness :
    (((runLoop 0 false (fun n => (JValue.num n, true, none)) (fun _ => false) 6 0).results =
        (runLoop 0 true (fun n => (JValue.num n, true, none)) (fun _ => false) 6 0).results ∧
      (runLoop 0 false (fun n => (JValue.num n, true, none)) (fun _ => false) 6 0).stop =
        (runLoop 0 true (fun n => (JValue.num n, true, none)) (fun _ => false) 6 0).stop ∧
      (runLoop 0 false (fun n => (JValue.num n, true, none)) (fun _ => false) 6 0).prompts =
        (runLoop 0 true (fun n => (JValue.num n, true, none)) (fun _ => false) 6 0).prompts) ∧
    (∀ n ∈ (runLoop 0 false (fun n => (JValue.num n, true, none)) (fun _ => false) 6 0).prompts,
      0 < n ∧ n % 5 = 0) ∧
    (∀ res : JValue, (fun n => ((JValue.num n : JValue), true, (none : Option String))) 0 = (res, true, none) →
      ¬ ((0 : Int) > 0 ∧ ((0 : Nat) : Int) ≥ (0 : Int)) → (0 + 1) % 5 = 0 →
      (fun _ => false) (0 + 1) = false → 0 < 6 →
      runLoop 0 false (fun n => (JValue.num n, true, none)) (fun _ => false) 6 0 =
        ⟨[⟨0, res, true, ""⟩], .operator, [0 + 1], [(false, 0)]⟩)) :=
  runLoop_checkpoint_regardless_of_mode 0 (fun n => (JValue.num n, true, none))
    (fun _ => false) 6 0 false true

end NetTool.CLI

namespace NetTool.Build

/-- Program counter of one caller executing the cold-plugin path of
`LoadPluginFunc` / `executeSubnetCalculator` (plugin_loader_helper.go):
`stat` = about to run the `os.Stat` existence check on the `.so`
artifact; `build` = observed the artifact absent and about to run
`go build -buildmode=plugin`; `done` = past the build-gating section. -/
inductive ThreadPC where
  | stat
  | build
  | done
  deriving DecidableEq, Repr

/-- Shared state of N concurrent `RunPlugin` callers for one plugin
identifier: each caller's program counter, whether the compiled `.so`
artifact exists on disk, and how many build invocations have run. -/
structure BuildState where
  pcs : List ThreadPC
  artifact : Bool
  builds : Nat
  deriving DecidableEq, Repr

/-- One interleaving step.  `stat`: caller i checks artifact existence
(`os.Stat`) and proceeds to the build when absent, else skips it.
`build`: caller i runs `go build`, incrementing the build count and
creating the artifact.  No lock or single-flight guard orders these
steps, exactly as in the source. -/
inductive BuildStep : BuildState → BuildState → Prop where
  | stat (s : BuildState) (i : Nat) (h : s.pcs.get? i = some .stat) :
      BuildStep s ⟨s.pcs.set i (if s.artifact then .done else .build),
        s.artifact, s.builds⟩
  | build (s : BuildState) (i : Nat) (h : s.pcs.get? i = some .build) :
      BuildStep s ⟨s.pcs.set i .done, true, s.builds + 1⟩

/-- Reachability under arbitrary interleaving. -/
def Reach : BuildState → BuildState → Prop :=
  Relation.ReflTransGen BuildStep

/-- Initial cold state: n callers about to stat, artifact absent, no
build yet. -/
def initState (n : Nat) : BuildState :=
  ⟨List.replicate n .stat, false, 0⟩

/-- All callers are past the build-gating section. -/
def allDone (s : BuildState) : Prop :=
  ∀ pc ∈ s.pcs, pc = ThreadPC.done

/-- The final state of the racy double-build schedule for two callers. -/
def twoBuildsFinal : BuildState :=
  ⟨[.done, .done], true, 2⟩

/-- Both callers stat before either builds: each observes the artifact
absent and builds, so two callers complete with two build invocations. -/
theorem reach_two_builds : Reach (initState 2) twoBuildsFinal := by
  have s1 : BuildStep (initState 2) ⟨[.build, .stat], false, 0⟩ := by
    have h := BuildStep.stat (initState 2) 0 (by decide)
    simpa [initState] using h
  have s2 : BuildStep ⟨[.build, .stat], false, 0⟩ ⟨[.build, .build], false, 0⟩ := by
    have h := BuildStep.stat ⟨[.build, .stat], false, 0⟩ 1 (by decide)
    simpa using h
  have s3 : BuildStep ⟨[.build, .build], false, 0⟩ ⟨[.done, .build], true, 1⟩ := by
    have h := BuildStep.build ⟨[.build, .build], false, 0⟩ 0 (by decide)
    simpa using h
  have s4 : BuildStep ⟨[.done, .build], true, 1⟩ twoBuildsFinal := by
    have h := BuildStep.build ⟨[.done, .build], true, 1⟩ 1 (by decide)
    simpa [twoBuildsFinal] using h
  exact .head s1 (.head s2 (.head s3 (.head s4 .refl)))

/-- Counterexample to C2: two concurrent callers for the same cold plugin
can reach completion with two build invocations — the artifact-existence
check is not serialized, so the single-flight property fails on the
code. -/
theorem build_single_flight_fails :
    (Reach (initState 2) twoBuildsFinal ∧ allDone twoBuildsFinal ∧
        twoBuildsFinal.builds = 2) ∧
      ¬ (∀ s, Reach (initState 2) s → allDone s → s.builds = 1) := by
  refine ⟨⟨reach_two_builds, ?_, rfl⟩, ?_⟩
  · intro pc hpc
    simp [twoBuildsFinal] at hpc
    exact hpc
  · intro hall
    have h2 := hall twoBuildsFinal reach_two_builds
      (by intro pc hpc; simp [twoBuildsFinal] at hpc; exact hpc)
    simp [twoBuildsFinal] at h2

/-- Number of callers already past the gating section. -/
def countDone (pcs : List ThreadPC) : Nat :=
  pcs.countP (fun pc => pc == ThreadPC.done)

/-- Inductive invariant of the racy build gate. -/
def BuildInv (n : Nat) (s : BuildState) : Prop :=
  s.pcs.length = n ∧ s.builds ≤ countDone s.pcs ∧
    (s.artifact = false → s.builds = 0) ∧
    (0 < countDone s.pcs → s.artifact = true) ∧
    (s.artifact = true → 1 ≤ s.builds)

/-- `countP` after a `set`: bounded bookkeeping for the invariant. -/
theorem countDone_set_le (pcs : List ThreadPC) (i : Nat) (pc : ThreadPC) :
    countDone pcs ≤ countDone (pcs.set i pc) + 1 := by
  induction pcs generalizing i with
  | nil => simp [countDone]
  | cons hd tl ih =>
    cases i with
    | zero =>
      simp only [List.set]
      by_cases hhd : hd = ThreadPC.done <;> by_cases hpc : pc = ThreadPC.done <;>
        simp [countDone, List.countP_cons, hhd, hpc] <;> omega
    | succ i =>
      simp only [List.set]
      by_cases hhd : hd = ThreadPC.done <;>
        simp [countDone, List.countP_cons, hhd] <;>
        have := ih i <;> simp [countDone] at this <;> omega

/-- Setting position i to `done` does not decrease the done count. -/
theorem countDone_le_set_done (pcs : List ThreadPC) (i : Nat) :
    countDone pcs ≤ countDone (pcs.set i ThreadPC.done) := by
  induction pcs generalizing i with
  | nil => simp [countDone]
  | cons hd tl ih =>
    cases i with
    | zero =>
      by_cases hhd : hd = ThreadPC.done <;>
        simp [countDone, List.countP_cons, hhd]
    | succ i =>
      by_cases hhd : hd = ThreadPC.done <;>
        simp [countDone, List.countP_cons, hhd] <;> exact ih i

end NetTool.Build

namespace NetTool.Build

/-- Setting a non-`done` program counter never increases the done count. -/
theorem countDone_set_nondone (pcs : List ThreadPC) (i : Nat) (pc : ThreadPC)
    (hpc : pc ≠ ThreadPC.done) :
    countDone (pcs.set i pc) ≤ countDone pcs := by
  induction pcs generalizing i with
  | nil => simp [countDone]
  | cons hd tl ih =>
    cases i with
    | zero =>
      by_cases hhd : hd = ThreadPC.done <;>
        simp [countDone, List.countP_cons, hhd, hpc]
    | succ i =>
      by_cases hhd : hd = ThreadPC.done <;>
        simp [countDone, List.countP_cons, hhd] <;>
        exact ih i

/-- Overwriting a non-`done` counter with `done` increments the done
count by one. -/
theorem countDone_set_done_eq (pcs : List ThreadPC) (i : Nat) (pc : ThreadPC)
    (hget : pcs.get? i = some pc) (hpc : pc ≠ ThreadPC.done) :
    countDone (pcs.set i ThreadPC.done) = countDone pcs + 1 := by
  induction pcs generalizing i with
  | nil => simp at hget
  | cons hd tl ih =>
    cases i with
    | zero =>
      simp only [List.get?] at hget
      cases hget
      simp [countDone, List.countP_cons, hpc]
    | succ i =>
      simp only [List.get?] at hget
      have htl := ih i hget
      by_cases hhd : hd = ThreadPC.done <;>
        simp [countDone, List.countP_cons, hhd] at htl ⊢ <;> omega

/-- The inductive invariant holds at every reachable state. -/
theorem buildInv_of_reach (n : Nat) (s : BuildState)
    (h : Reach (initState n) s) : BuildInv n s := by
  induction h with
  | refl =>
    refine ⟨by simp [initState], ?_, fun _ => rfl, ?_, ?_⟩
    · simp [initState]
    · intro hlt
      exfalso
      have h0 : countDone (List.replicate n ThreadPC.stat) = 0 := by
        simp [countDone, List.countP_eq_zero, List.mem_replicate]
      simp only [initState] at hlt
      omega
    · intro hart
      simp [initState] at hart
  | @tail b c hab hbc ih =>
    obtain ⟨hlen, hle, hfalse, hdone, htrue⟩ := ih
    cases hbc with
    | stat i hget =>
      cases hart : b.artifact with
      | true =>
        refine ⟨by simp [hlen], ?_, ?_, ?_, ?_⟩
        · simp only [hart, if_true]
          exact le_trans hle (countDone_le_set_done b.pcs i)
        · intro hf
          simp at hf
        · intro _
          rfl
        · intro _
          exact htrue hart
      | false =>
        refine ⟨by simp [hlen], ?_, ?_, ?_, ?_⟩
        · simp only [hart]
          rw [hfalse hart]
          exact Nat.zero_le _
        · intro _
          exact hfalse hart
        · intro hlt
          exfalso
          simp only [Bool.false_eq_true, if_false] at hlt
          have h0 : countDone b.pcs = 0 := by
            by_contra hne
            have hT := hdone (Nat.pos_of_ne_zero hne)
            rw [hT] at hart
            exact absurd hart (by simp)
          have hmono := countDone_set_nondone b.pcs i ThreadPC.build (by simp)
          omega
        · intro hcontr
          simp at hcontr
    | build i hget =>
      refine ⟨by simp [hlen], ?_, ?_, ?_, ?_⟩
      · simp only
        rw [countDone_set_done_eq b.pcs i ThreadPC.build hget (by simp)]
        omega
      · intro hf
        simp at hf
      · intro _
        rfl
      · intro _
        simp only
        omega

/-- C2 (amended): the racy artifact-existence gate bounds redundant work
but is not single-flight — at every state reachable by N concurrent
callers of a cold plugin, at most N builds have run (each caller builds
at most once), and once all callers have completed at least one build has
run; however no schedule-independent guarantee of exactly one build
exists (see the two-build schedule). -/
theorem build_count_bounds (n : Nat) (s : BuildState)
    (h : Reach (initState n) s) :
    s.builds ≤ n ∧ (0 < n → allDone s → 1 ≤ s.builds) := by
  obtain ⟨hlen, hle, hfalse, hdone, htrue⟩ := buildInv_of_reach n s h
  constructor
  · calc s.builds ≤ countDone s.pcs := hle
      _ ≤ s.pcs.length := List.countP_le_length _
      _ = n := hlen
  · intro hn hall
    have hcount : countDone s.pcs = s.pcs.length := by
      rw [countDone, List.countP_eq_length]
      intro pc hpc
      simp [hall pc hpc]
    have hpos : 0 < countDone s.pcs := by omega
    exact htrue (hdone hpos)

/-- Witness for the C2 amended theorem at the concrete two-caller,
two-build schedule. -/
theorem build_count_bounds_witness :
    twoBuildsFinal.builds ≤ 2 ∧
      (0 < 2 → allDone twoBuildsFinal → 1 ≤ twoBuildsFinal.builds) :=
  build_count_bounds 2 twoBuildsFinal reach_two_builds

end NetTool.Build

namespace NetTool

/-- Environment of `DynamicPlugin.GetDefinition` (compat.go): the outcome
of reading `plugin.json` (`os.ReadFile`), the JSON decoder for
`types.PluginDefinition` (`json.Unmarshal`), and the outcome of running
`go run plugin.go --definition` (`CombinedOutput`). -/
structure DefinitionEnv where
  manifestJSON : Except String String
  parseDefinition : String → Except String PluginDefinition
  describeRun : Except String String

/-- Go struct `plugins.DynamicPlugin` (compat.go): identifier, directory
and the lazily cached definition; the mutex only guards the cache and has
no sequential behavior. -/
structure DynamicPlugin where
  pluginID : String
  pluginDir : String
  definition : Option PluginDefinition

/-- The synthesized last-resort definition of `DynamicPlugin.GetDefinition`:
identifier and name set to the plugin identifier, the failure reason in
the description, version "0.0.0", the warning icon, all other fields at
their Go zero values. -/
def errorDefinition (pluginID : String) (msg : String) : PluginDefinition :=
  { id := pluginID, name := pluginID, description := msg, version := "0.0.0"
    author := "", license := "", icon := "exclamation-triangle"
    parameters := [], requires := [], repository := "" }

/-- The describe-mode fallback of `DynamicPlugin.GetDefinition`
(compat.go lines 381-414): run `go run plugin.go --definition`; on a run
error synthesize an "Error loading plugin" definition, on unparsable
output an "Error parsing definition" definition. -/
def DynamicPlugin.describeDefinition (p : DynamicPlugin) (env : DefinitionEnv) :
    PluginDefinition :=
  match env.describeRun with
  | .error e => errorDefinition p.pluginID ("Error loading plugin: " ++ e)
  | .ok output =>
    match env.parseDefinition output with
    | .ok d => d
    | .error e => errorDefinition p.pluginID ("Error parsing definition: " ++ e)

/-- `DynamicPlugin.GetDefinition` (compat.go lines 362-414): cached
definition if present; else the parsed `plugin.json` if it reads and
parses; else the describe-mode fallback.  (The Go code also stores the
found definition into the cache; that mutation does not affect the
returned value.) -/
def DynamicPlugin.getDefinition (p : DynamicPlugin) (env : DefinitionEnv) :
    PluginDefinition :=
  match p.definition with
  | some d => d
  | none =>
    match env.manifestJSON with
    | .ok jsonData =>
      match env.parseDefinition jsonData with
      | .ok d => d
      | .error _ => p.describeDefinition env
    | .error _ => p.describeDefinition env

/-- The static manifest tier failed: `plugin.json` was unreadable, or its
contents did not decode into a definition. -/
def ManifestFails (env : DefinitionEnv) : Prop :=
  (∃ e, env.manifestJSON = .error e) ∨
    (∃ s e, env.manifestJSON = .ok s ∧ env.parseDefinition s = .error e)

/-- C3: `GetDefinition` is total and never yields no definition: the
cached or freshly parsed manifest definition when available, else the
parsed describe-mode output, else a synthesized definition embedding the
failure reason ("Error loading plugin: ..." when the describe run fails,
"Error parsing definition: ..." when its output does not parse), carrying
the plugin's identifier. -/
theorem getDefinition_total_with_fallbacks :
    ∀ (p : DynamicPlugin) (env : DefinitionEnv),
      (∀ d0, p.definition = some d0 → p.getDefinition env = d0) ∧
      (∀ s d0, p.definition = none → env.manifestJSON = .ok s →
        env.parseDefinition s = .ok d0 → p.getDefinition env = d0) ∧
      (∀ out d0, p.definition = none → ManifestFails env →
        env.describeRun = .ok out → env.parseDefinition out = .ok d0 →
        p.getDefinition env = d0) ∧
      (∀ e, p.definition = none → ManifestFails env →
        env.describeRun = .error e →
        p.getDefinition env =
          errorDefinition p.pluginID ("Error loading plugin: " ++ e)) ∧
      (∀ out e, p.definition = none → ManifestFails env →
        env.describeRun = .ok out → env.parseDefinition out = .error e →
        p.getDefinition env =
          errorDefinition p.pluginID ("Error parsing definition: " ++ e)) := by
  intro p env
  refine ⟨?_, ?_, ?_, ?_, ?_⟩
  · intro d0 hc
    simp [DynamicPlugin.getDefinition, hc]
  · intro s d0 hc hm hp
    simp [DynamicPlugin.getDefinition, hc, hm, hp]
  · intro out d0 hc hmf hrun hp
    rcases hmf with ⟨e, he⟩ | ⟨s, e, hs, hpe⟩
    · simp [DynamicPlugin.getDefinition, DynamicPlugin.describeDefinition,
        hc, he, hrun, hp]
    · simp [DynamicPlugin.getDefinition, DynamicPlugin.describeDefinition,
        hc, hs, hpe, hrun, hp]
  · intro e hc hmf hrun
    rcases hmf with ⟨e2, he⟩ | ⟨s, e2, hs, hpe⟩
    · simp [DynamicPlugin.getDefinition, DynamicPlugin.describeDefinition,
        hc, he, hrun]
    · simp [DynamicPlugin.getDefinition, DynamicPlugin.describeDefinition,
        hc, hs, hpe, hrun]
  · intro out e hc hmf hrun hp
    rcases hmf with ⟨e2, he⟩ | ⟨s, e2, hs, hpe⟩
    · simp [DynamicPlugin.getDefinition, DynamicPlugin.describeDefinition,
        hc, he, hrun, hp]
    · simp [DynamicPlugin.getDefinition, DynamicPlugin.describeDefinition,
        hc, hs, hpe, hrun, hp]

end NetTool

namespace NetTool

/-- One directory entry as seen by the discovery loop of
`PluginLoader.LoadPlugins`: its name, whether it is a directory, whether
`plugin.json` and `plugin.go` exist, and the outcome of reading
`plugin.json`. -/
structure DirEntry where
  name : String
  isDir : Bool
  hasPluginJSON : Bool
  hasPluginGo : Bool
  jsonRead : Except String String

/-- One iteration of the discovery loop of `PluginLoader.LoadPlugins`
(compat.go lines 265-329): skip non-directories, skip when `plugin.json`
or `plugin.go` is missing, skip (with a logged warning) when the manifest
cannot be read or parsed; otherwise the parsed definition is registered
under its own `ID` — no field of the parsed definition is validated. -/
def loadPluginsEntry (parseDefinition : String → Except String PluginDefinition)
    (entry : DirEntry) : Option PluginDefinition :=
  if ¬entry.isDir then none
  else if ¬entry.hasPluginJSON then none
  else if ¬entry.hasPluginGo then none
  else
    match entry.jsonRead with
    | .error _ => none
    | .ok data =>
      match parseDefinition data with
      | .error _ => none
      | .ok pluginDef => some pluginDef

/-- Go struct `plugins.PluginMetadata` (plugin_installer.go), restricted
to the fields `validatePlugin` reads or writes; the remaining fields
(Status, Path, Dependencies, GitInfo, ...) play no role in validation. -/
structure PluginMetadata where
  id : String
  name : String
  description : String
  version : String
  author : String
  license : String
  icon : String
  deriving DecidableEq, Repr

/-- `PluginInstaller.validatePlugin` (plugin_installer.go lines
1459-1501): require `plugin.json` and `plugin.go`, require the metadata
to read and parse, reject empty ID, name or description with the
corresponding error, and default the icon to "plugin" and the version to
"1.0.0". -/
def validatePlugin (hasPluginJSON hasPluginGo : Bool)
    (metadata : Except String PluginMetadata) : Except String PluginMetadata :=
  if ¬hasPluginJSON then .error "plugin.json not found, not a valid plugin"
  else if ¬hasPluginGo then .error "plugin.go not found, not a valid plugin"
  else
    match metadata with
    | .error e => .error e
    | .ok m =>
      if m.id = "" then .error "plugin ID is missing in plugin.json"
      else if m.name = "" then .error "plugin name is missing in plugin.json"
      else if m.description = "" then
        .error "plugin description is missing in plugin.json"
      else
        .ok { m with
          icon := if m.icon = "" then "plugin" else m.icon
          version := if m.version = "" then "1.0.0" else m.version }

/-- A definition with an empty display name and description, as decoded
from a manifest like `{"id":"x"}` in which only the identifier is set. -/
def emptyNameDef : PluginDefinition :=
  { id := "x", name := "", description := "", version := "", author := ""
    license := "", icon := "", parameters := [], requires := []
    repository := "" }

/-- Counterexample to C5: the discovery loop registers a parsed
definition whose display name and description are empty — no non-empty
check happens during discovery, so such a plugin does enter the
registry. -/
theorem loadPlugins_accepts_empty_fields :
    loadPluginsEntry (fun _ => .ok emptyNameDef)
        ⟨"x", true, true, true, .ok "manifest"⟩ = some emptyNameDef ∧
      emptyNameDef.name = "" ∧ emptyNameDef.description = "" := by
  refine ⟨rfl, rfl, rfl⟩

/-- C5 (amended): discovery registers any definition that parses,
regardless of empty identifier, name or description; the non-empty
validation of those three fields lives only in the installer's
`validatePlugin`, which accepts exactly when all three are non-empty
(given both plugin files exist and the metadata reads), defaulting icon
and version. -/
theorem discovery_unvalidated_installer_validates :
    (∀ (parseDefinition : String → Except String PluginDefinition)
      (entry : DirEntry) (s : String) (d : PluginDefinition),
      entry.isDir = true → entry.hasPluginJSON = true →
      entry.hasPluginGo = true → entry.jsonRead = .ok s →
      parseDefinition s = .ok d →
      loadPluginsEntry parseDefinition entry = some d) ∧
    (∀ m : PluginMetadata,
      (∃ m2, validatePlugin true true (.ok m) = .ok m2) ↔
        (m.id ≠ "" ∧ m.name ≠ "" ∧ m.description ≠ "")) ∧
    (∀ m : PluginMetadata, m.id ≠ "" → m.name ≠ "" → m.description ≠ "" →
      validatePlugin true true (.ok m) =
        .ok { m with
          icon := if m.icon = "" then "plugin" else m.icon
          version := if m.version = "" then "1.0.0" else m.version }) := by
  refine ⟨?_, ?_, ?_⟩
  · intro parseDefinition entry s d hdir hjson hgo hread hparse
    simp [loadPluginsEntry, hdir, hjson, hgo, hread, hparse]
  · intro m
    constructor
    · rintro ⟨m2, hm2⟩
      by_cases hid : m.id = "" <;> by_cases hname : m.name = "" <;>
        by_cases hdesc : m.description = "" <;>
        simp [validatePlugin, hid, hname, hdesc] at hm2 <;>
        exact ⟨hid, hname, hdesc⟩
    · rintro ⟨hid, hname, hdesc⟩
      refine ⟨{ m with
          icon := if m.icon = "" then "plugin" else m.icon
          version := if m.version = "" then "1.0.0" else m.version }, ?_⟩
      simp [validatePlugin, hid, hname, hdesc]
  · intro m hid hname hdesc
    simp [validatePlugin, hid, hname, hdesc]

end NetTool

namespace NetTool

/-- `types.CompatPlugin` (compat.go lines 5-32): convert a legacy plugin
structure to a `PluginDefinition`, copying every parameter field (the Go
`PluginParam` literal leaves `CanIterate` at its zero value `false`) and
filling version/author/license with the fixed defaults "0.0.0",
"Unknown", "Unknown"; `Requires`/`Repository` stay at their zero
values. -/
def CompatPlugin (p : LegacyPlugin) : PluginDefinition :=
  { id := p.id, name := p.name, description := p.description, icon := p.icon
    parameters := p.parameters.map (fun param =>
      { id := param.id, name := param.name, description := param.description
        type := param.type, required := param.required
        default := param.default, options := param.options, min := param.min
        max := param.max, step := param.step, canIterate := false })
    version := "0.0.0", author := "Unknown", license := "Unknown"
    requires := [], repository := "" }

/-- Go struct `types.LegacyPluginWrapper` (compat.go): wraps a legacy
plugin (the executor field is irrelevant to definition conversion). -/
structure LegacyPluginWrapper where
  legacyPlugin : LegacyPlugin

/-- `LegacyPluginWrapper.GetDefinition` (compat.go lines 65-96): same
parameter conversion, with the wrapper's fixed defaults "1.0.0",
"NetTool", "MIT" and an explicitly empty repository. -/
def LegacyPluginWrapper.getDefinition (w : LegacyPluginWrapper) :
    PluginDefinition :=
  { id := w.legacyPlugin.id, name := w.legacyPlugin.name
    description := w.legacyPlugin.description, icon := w.legacyPlugin.icon
    parameters := w.legacyPlugin.parameters.map (fun p =>
      { id := p.id, name := p.name, description := p.description
        type := p.type, required := p.required, default := p.default
        options := p.options, min := p.min, max := p.max, step := p.step
        canIterate := false })
    version := "1.0.0", author := "NetTool", license := "MIT"
    requires := [], repository := "" }

/-- C9: both legacy adapters preserve identifier, name, description and
icon, preserve every parameter field (identifier, name, description,
type, required, default, options, min, max, step) exactly and in order,
introduce nothing else (`canIterate` stays at the false zero value,
requires and repository stay empty), and fill version/author/license with
their fixed defaults ("0.0.0"/"Unknown"/"Unknown" for `CompatPlugin`,
"1.0.0"/"NetTool"/"MIT" for `LegacyPluginWrapper.GetDefinition`). -/
theorem legacy_adapters_preserve_parameters (lp : LegacyPlugin) :
    ((CompatPlugin lp).id = lp.id ∧ (CompatPlugin lp).name = lp.name ∧
      (CompatPlugin lp).description = lp.description ∧
      (CompatPlugin lp).icon = lp.icon) ∧
    ((CompatPlugin lp).parameters.length = lp.parameters.length ∧
      (CompatPlugin lp).parameters.map (fun q => q.id) =
        lp.parameters.map (fun q => q.id) ∧
      (CompatPlugin lp).parameters.map (fun q => q.name) =
        lp.parameters.map (fun q => q.name) ∧
      (CompatPlugin lp).parameters.map (fun q => q.description) =
        lp.parameters.map (fun q => q.description) ∧
      (CompatPlugin lp).parameters.map (fun q => q.type) =
        lp.parameters.map (fun q => q.type) ∧
      (CompatPlugin lp).parameters.map (fun q => q.required) =
        lp.parameters.map (fun q => q.required) ∧
      (CompatPlugin lp).parameters.map (fun q => q.default) =
        lp.parameters.map (fun q => q.default) ∧
      (CompatPlugin lp).parameters.map (fun q => q.options) =
        lp.parameters.map (fun q => q.options) ∧
      (CompatPlugin lp).parameters.map (fun q => q.min) =
        lp.parameters.map (fun q => q.min) ∧
      (CompatPlugin lp).parameters.map (fun q => q.max) =
        lp.parameters.map (fun q => q.max) ∧
      (CompatPlugin lp).parameters.map (fun q => q.step) =
        lp.parameters.map (fun q => q.step) ∧
      (CompatPlugin lp).parameters.map (fun q => q.canIterate) =
        lp.parameters.map (fun _ => false)) ∧
    ((CompatPlugin lp).version = "0.0.0" ∧
      (CompatPlugin lp).author = "Unknown" ∧
      (CompatPlugin lp).license = "Unknown" ∧
      (CompatPlugin lp).requires = [] ∧ (CompatPlugin lp).repository = "") ∧
    ((LegacyPluginWrapper.mk lp).getDefinition =
      { CompatPlugin lp with
        version := "1.0.0", author := "NetTool", license := "MIT" }) := by
  refine ⟨⟨rfl, rfl, rfl, rfl⟩, ⟨?_, ?_, ?_, ?_, ?_, ?_, ?_, ?_, ?_, ?_, ?_, ?_⟩,
    ⟨rfl, rfl, rfl, rfl, rfl⟩, ?_⟩ <;>
    simp [CompatPlugin, LegacyPluginWrapper.getDefinition, Function.comp_def]

end NetTool

namespace NetTool.Bandwidth

/-- Environment of `executeBandwidthTest` (plugin_loader_helper.go): the
outcome of each external speed-test runner (`runLibreSpeedCLI`,
`runOoklaSpeedtest`, `runLegacySpeedtest` shell out to the corresponding
binaries under a 60 s timeout and build their result maps from parsed
JSON; each is an environmental oracle here), the stream of `randomFloat`
draws of `simulateBandwidthTest`, and the formatted current time. -/
structure BandwidthEnv where
  libre : Except String (List (String × JValue))
  ookla : Except String (List (String × JValue))
  legacy : Except String (List (String × JValue))
  rand : Nat → ℚ
  now : String

/-- Go `math.Round`: round to the nearest integer, halves away from
zero (arguments embedded as rationals). -/
def goRound (q : ℚ) : ℚ :=
  if q < 0 then -(((-q) + 1/2).floor : ℚ) else ((q + 1/2).floor : ℚ)

/-- `simulateBandwidthTest` (plugin_loader_helper.go lines 554-580):
fabricate plausible numbers from the random draws, mark the result map
with source "simulated", and put the joined attempt notes into the
note. -/
def simulateBandwidthTest (notes : List String) (env : BandwidthEnv) :
    List (String × JValue) :=
  let download := goRound ((70 + env.rand 0 * 330) * 100) / 100
  let upload := goRound ((download * (1/2 + env.rand 1 * (2/5))) * 100) / 100
  let latency := goRound ((8 + env.rand 2 * 25) * 100) / 100
  let packetLoss := goRound (env.rand 3 * 50) / 100
  let note := if notes.isEmpty then "Simulated bandwidth test results"
    else "Simulated bandwidth test results; attempts: " ++
      String.intercalate "; " notes
  [("downloadSpeed", .num download), ("uploadSpeed", .num upload),
    ("latency", .num latency), ("packetLoss", .num packetLoss),
    ("source", .str "simulated"), ("timestamp", .str env.now),
    ("note", .str note)]

/-- `executeBandwidthTest` (plugin_loader_helper.go lines 335-357): try
librespeed-cli, then the Ookla speedtest binary, then speedtest-cli,
collecting a note for each failed attempt; when all three fail return
simulated results — and in every case return a nil error. -/
def executeBandwidthTest (env : BandwidthEnv) :
    List (String × JValue) × Option String :=
  match env.libre with
  | .ok result => (result, none)
  | .error e1 =>
    match env.ookla with
    | .ok result => (result, none)
    | .error e2 =>
      match env.legacy with
      | .ok result => (result, none)
      | .error e3 =>
        (simulateBandwidthTest
          ["librespeed-cli: " ++ e1, "speedtest binary: " ++ e2,
            "speedtest-cli: " ++ e3] env, none)

/-- C10: the bandwidth-test executor is total over its error channel —
it always returns a nil error; and when all three external tools fail it
returns the simulated result map, whose source is "simulated" and whose
note lists the three failed attempts. -/
theorem executeBandwidthTest_never_errors :
    ∀ env : BandwidthEnv,
      (executeBandwidthTest env).2 = none ∧
      (∀ e1 e2 e3, env.libre = .error e1 → env.ookla = .error e2 →
        env.legacy = .error e3 →
        (executeBandwidthTest env).1 =
          simulateBandwidthTest
            ["librespeed-cli: " ++ e1, "speedtest binary: " ++ e2,
              "speedtest-cli: " ++ e3] env ∧
        (executeBandwidthTest env).1.lookup "source" =
          some (.str "simulated") ∧
        (executeBandwidthTest env).1.lookup "note" =
          some (.str ("Simulated bandwidth test results; attempts: " ++
            (("librespeed-cli: " ++ e1) ++ "; " ++ ("speedtest binary: " ++ e2)
              ++ "; " ++ ("speedtest-cli: " ++ e3))))) := by
  intro env
  constructor
  · rcases hl : env.libre with e1 | r
    · rcases ho : env.ookla with e2 | r
      · rcases hg : env.legacy with e3 | r <;>
          simp [executeBandwidthTest, hl, ho, hg]
      · simp [executeBandwidthTest, hl, ho]
    · simp [executeBandwidthTest, hl]
  · intro e1 e2 e3 hl ho hg
    refine ⟨by simp [executeBandwidthTest, hl, ho, hg], ?_, ?_⟩ <;>
      simp [executeBandwidthTest, simulateBandwidthTest, hl, ho, hg,
        String.intercalate, List.lookup] <;>
      rfl

end NetTool.Bandwidth
